import Mathlib

/-!
Verification of the sewer-inspection import/search pipeline.

This file shallowly embeds the TypeScript sources of the repository:
  - the streaming decoder (src/lib/s3-stream.ts, function streamFromS3),
  - the streaming-scan search backend (src/lib/search.ts: searchInspections,
    streamWithOffsetAndLimit, compileFilterPredicates, fastFilter,
    estimateTotalCount, matchesFilters),
  - the indexed search backend (src/lib/database/sqlite.ts: getInspections,
    getInspectionCount; src/lib/database/search.ts: searchInspections),
  - the batch importer (src/lib/database/importer.ts: DataImporter.importFromS3,
    validateRecord, filterDuplicates, createBatches, calculateResumeOffset,
    canResumeImport) and the store operations it uses
    (sqlite.ts: transformInspectionForDb, insertInspection,
    insertInspectionsBatch),
  - the import API guard (src/app/api/import/route.ts: startImport).

Conventions of the embedding:
  - JavaScript undefined / optional fields become Option.
  - JavaScript string truthiness (empty string is falsy) is strTruthy.
  - toLowerCase and SQLite LIKE case folding are modelled for the ASCII
    range (asciiLower); all data in the repository is ASCII.
  - Numeric JS comparisons against undefined (which are false via NaN)
    are jsLtOpt / jsGtOpt.
  - Remote sources are lists of nonempty lines; a line is some record if
    it parses as JSON and none if it is malformed.
  - better-sqlite3 statements are modelled by pure functions over lists
    of rows; SQLite default BINARY collation makes the = operator on TEXT
    case sensitive, while LIKE folds case for ASCII letters.
-/

/-- Lowercases ASCII letters, as both JS toLowerCase and SQLite LIKE case
folding do on the ASCII range (the only range exercised by this data set). -/
def lowerChar (c : Char) : Char :=
  if 'A' ≤ c ∧ c ≤ 'Z' then Char.ofNat (c.toNat + 32) else c

/-- ASCII lowercasing of a string. -/
def asciiLower (s : String) : String :=
  String.mk (s.toList.map lowerChar)

/-- Whether the first list leads the second (is an initial segment). -/
def listLeads : List Char → List Char → Bool
  | [], _ => true
  | _ :: _, [] => false
  | a :: as, b :: bs => a == b && listLeads as bs

/-- Whether the first list occurs contiguously inside the second. -/
def listHasSub (pat : List Char) : List Char → Bool
  | [] => listLeads pat []
  | b :: bs => listLeads pat (b :: bs) || listHasSub pat bs

/-- Case-insensitive substring test: models both
JS lhs.toLowerCase().includes(pat.toLowerCase()) and
SQLite column LIKE the pattern wrapped in percent wildcards
(filter values themselves contain no wildcard characters). -/
def containsCI (s pat : String) : Bool :=
  listHasSub ((asciiLower pat).toList) ((asciiLower s).toList)

/-- JS truthiness of an optional string: undefined and the empty string
are falsy. -/
def strTruthy (o : Option String) : Bool :=
  match o with
  | none => false
  | some s => !s.isEmpty

/-- JS comparison (value < bound) where value may be undefined;
undefined < n is false because the comparison goes through NaN. -/
def jsLtOpt (o : Option Int) (b : Int) : Bool :=
  match o with
  | none => false
  | some v => decide (v < b)

/-- JS comparison (value > bound) where value may be undefined. -/
def jsGtOpt (o : Option Int) (b : Int) : Bool :=
  match o with
  | none => false
  | some v => decide (b < v)

/-- JS expression (o || d) on an optional number: undefined and 0 are
falsy and give the default. -/
def jsNumOr (o : Option Int) (d : Int) : Int :=
  match o with
  | none => d
  | some v => if v == 0 then d else v

/-- JS Math.round (half up, nonnegative operands) of the fraction
num / den, computed exactly on naturals: floor (num / den + 1 / 2). -/
def mathRoundDiv (num den : Nat) : Nat :=
  (2 * num + den) / (2 * den)

/-- The fields of a decoded SewerInspection record (src/lib/types.ts) that
the importer and the search backends inspect. Fields that can be absent in
raw JSON (everything reached through optional chaining or validated
against undefined in the source) are Option. -/
structure SewerInspection where
  id : Option String
  timestamp_utc : String
  city : Option String
  state : Option String
  material : Option String
  diameter_in : Option Int
  inspection_score : Option Int
  requires_repair : Option Bool
deriving DecidableEq, Repr

/-- A row of the inspections table (sqlite.ts schema): the filterable
scalar columns are NOT NULL with defaults supplied by
transformInspectionForDb. -/
structure InspectionRow where
  id : String
  timestamp_utc : String
  city : String
  state : String
  material : String
  inspection_score : Int
  requires_repair : Bool
deriving DecidableEq, Repr

/-- SearchFilters (src/lib/types.ts), restricted to the fields both
backends consume. -/
structure SearchFilters where
  city : Option String := none
  state : Option String := none
  material : Option String := none
  scoreMin : Option Int := none
  scoreMax : Option Int := none
  requiresRepair : Option Bool := none
deriving Repr

/-- A line of a remote newline-delimited JSON source: some record when the
line parses, none when it is malformed. -/
abbrev SourceLine := Option SewerInspection

/-- The streaming decoder streamFromS3 (s3-stream.ts). It walks the
nonempty lines in order: every line (parsed or malformed) counts toward
the skip offset; past the offset, lines that parse are collected up to
the limit and malformed lines are dropped with only a logged error; the
function returns the instant the limit is reached. Hence the result is:
drop the first offset lines, keep the parses, take the limit. -/
def streamFromS3 (lines : List SourceLine) (limit offset : Nat) :
    List SewerInspection :=
  (((lines.drop offset).filterMap id).take limit)

/-- matchesFilters (search.ts lines 223-253). Each text condition is
guarded by JS truthiness of both the filter value and the record field:
when the record field is missing or empty the condition is skipped and
the record passes. The state comparison lowercases both sides. -/
def matchesFilters (i : SewerInspection) (f : SearchFilters) : Bool :=
  if strTruthy f.city && strTruthy i.city
      && !(containsCI (i.city.getD "") (f.city.getD "")) then false
  else if strTruthy f.state && strTruthy i.state
      && !(asciiLower (i.state.getD "") == asciiLower (f.state.getD "")) then false
  else if strTruthy f.material && strTruthy i.material
      && !(containsCI (i.material.getD "") (f.material.getD "")) then false
  else if f.scoreMin.isSome && jsLtOpt i.inspection_score (f.scoreMin.getD 0) then false
  else if f.scoreMax.isSome && jsGtOpt i.inspection_score (f.scoreMax.getD 0) then false
  else if f.requiresRepair.isSome && (i.requires_repair != f.requiresRepair) then false
  else true

/-- The record of pre-compiled predicates built by compileFilterPredicates
(search.ts lines 129-144). -/
structure FilterPredicates where
  hasCity : Bool
  city : Option String
  hasState : Bool
  state : Option String
  hasMaterial : Bool
  material : Option String
  hasScoreMin : Bool
  scoreMin : Int
  hasScoreMax : Bool
  scoreMax : Int
  hasRequiresRepair : Bool
  requiresRepair : Option Bool
deriving Repr

/-- compileFilterPredicates (search.ts). Note the scoreMin and scoreMax
defaults go through the JS || operator, so an explicit 0 bound is
replaced by the default. -/
def compileFilterPredicates (f : SearchFilters) : FilterPredicates :=
  { hasCity := strTruthy f.city
    city := f.city.map asciiLower
    hasState := strTruthy f.state
    state := f.state.map asciiLower
    hasMaterial := strTruthy f.material
    material := f.material.map asciiLower
    hasScoreMin := f.scoreMin.isSome
    scoreMin := jsNumOr f.scoreMin 0
    hasScoreMax := f.scoreMax.isSome
    scoreMax := jsNumOr f.scoreMax 100
    hasRequiresRepair := f.requiresRepair.isSome
    requiresRepair := f.requiresRepair }

/-- The optional-chained lookup inside fastFilter:
record.field?.toLowerCase().includes(pat); a missing field makes the whole
chain undefined (falsy). -/
def optContainsCI (field : Option String) (pat : Option String) : Bool :=
  match field with
  | none => false
  | some s => containsCI s (pat.getD "")

/-- fastFilter (search.ts lines 147-182): a sequence of early-exit
checks against the compiled predicates. -/
def fastFilter (i : SewerInspection) (p : FilterPredicates) : Bool :=
  if p.hasCity && !(optContainsCI i.city p.city) then false
  else if p.hasState && ((i.state.map asciiLower) != p.state) then false
  else if p.hasMaterial && !(optContainsCI i.material p.material) then false
  else if p.hasScoreMin && jsLtOpt i.inspection_score p.scoreMin then false
  else if p.hasScoreMax && jsGtOpt i.inspection_score p.scoreMax then false
  else if p.hasRequiresRepair && (i.requires_repair != p.requiresRepair) then false
  else true

/-- The per-record predicate the streaming scan applies inside
streamWithOffsetAndLimit: fastFilter first, then matchesFilters. -/
def streamScanPred (f : SearchFilters) (i : SewerInspection) : Bool :=
  fastFilter i (compileFilterPredicates f) && matchesFilters i f

namespace StreamSearch

/-- Chunk size of the streaming scan (search.ts line 73). -/
def chunkSize : Nat := 500

/-- Sample size per file for count estimation (search.ts line 186). -/
def sampleSize : Nat := 500

/-- Assumed records per file for count estimation (search.ts line 209). -/
def estimatedFileSize : Nat := 5000

/-- The file list hard-coded in searchInspections (search.ts lines 12-18). -/
def filesToSearch : List String :=
  ["sewer-inspections-part1.jsonl",
   "sewer-inspections-part2.jsonl",
   "sewer-inspections-part3.jsonl",
   "sewer-inspections-part4.jsonl",
   "sewer-inspections-part5.jsonl"]

/-- A remote object store: each file name resolves to its list of lines. -/
abbrev Sources := String → List SourceLine

/-- The for-loop over a filtered chunk inside streamWithOffsetAndLimit
(search.ts lines 100-114): skip pageMatches while localSkipped is below
skipCount, push pageMatches while below limitCount, and once a further match
arrives with the page full, return early (third component true). -/
def collectLoop (skipCount limitCount : Nat) :
    List SewerInspection → List SewerInspection → Nat →
    List SewerInspection × Nat × Bool
  | [], pageMatches, localSkipped => (pageMatches, localSkipped, false)
  | i :: rest, pageMatches, localSkipped =>
    if localSkipped < skipCount then
      collectLoop skipCount limitCount rest pageMatches (localSkipped + 1)
    else if pageMatches.length < limitCount then
      collectLoop skipCount limitCount rest (pageMatches ++ [i]) localSkipped
    else
      (pageMatches, localSkipped, true)

/-- The while-loop of streamWithOffsetAndLimit (search.ts lines 82-123).
Each iteration asks the decoder for a chunk of chunkSize records at the
current processed offset; the chunk filter callback increments processed
for every record of the chunk before the collect loop runs, so an early
return still reports the whole chunk as processed. fuel bounds the
recursion; the top-level entry supplies more fuel than the loop can
consume, so the fuel-0 branch is never reached. -/
def streamLoop (lines : List SourceLine) (f : SearchFilters)
    (skipCount limitCount : Nat) :
    Nat → List SewerInspection → Nat → Nat → List SewerInspection × Nat
  | 0, pageMatches, processed, _ => (pageMatches, processed)
  | fuel + 1, pageMatches, processed, localSkipped =>
    if pageMatches.length < limitCount then
      let chunk := streamFromS3 lines chunkSize processed
      if chunk.isEmpty then (pageMatches, processed)
      else
        let filteredChunk := chunk.filter (streamScanPred f)
        let processed2 := processed + chunk.length
        match collectLoop skipCount limitCount filteredChunk pageMatches localSkipped with
        | (pageMatches2, _, true) => (pageMatches2, processed2)
        | (pageMatches2, localSkipped2, false) =>
          if chunk.length < chunkSize then (pageMatches2, processed2)
          else streamLoop lines f skipCount limitCount fuel pageMatches2 processed2 localSkipped2
    else (pageMatches, processed)

/-- streamWithOffsetAndLimit (search.ts lines 66-126): returns the page
pageMatches and totalProcessed, the number of records the decoder produced
for this call. The unused globalOffset parameter of the source is
omitted. -/
def streamWithOffsetAndLimit (lines : List SourceLine) (f : SearchFilters)
    (skipCount limitCount : Nat) : List SewerInspection × Nat :=
  streamLoop lines f skipCount limitCount (lines.length + 1) [] 0 0

/-- The sampling pass of estimateTotalCount (search.ts lines 190-203),
returning (totalSampled, totalMatches) accumulated over the files. -/
def sampleTotals (src : Sources) (f : SearchFilters) :
    List String → Nat × Nat
  | [] => (0, 0)
  | file :: rest =>
    let sample := streamFromS3 (src file) sampleSize 0
    let acc := sampleTotals src f rest
    (sample.length + acc.1,
     (sample.filter (fun i => matchesFilters i f)).length + acc.2)

/-- estimateTotalCount (search.ts lines 185-220): sample sampleSize
records per file, extrapolate the sample match ratio to
estimatedFileSize records per file, Math.round the result, and return at
least the number of pageMatches seen in the samples. -/
def estimateTotalCount (src : Sources) (f : SearchFilters)
    (files : List String) : Nat :=
  let totals := sampleTotals src f files
  if totals.1 == 0 then 0
  else
    let estimatedTotal :=
      mathRoundDiv (totals.2 * estimatedFileSize * files.length) totals.1
    max totals.2 estimatedTotal

/-- The for-loop over filesToSearch in searchInspections (search.ts lines
28-47): break when the page is full, otherwise scan the next file with
the remaining offset (clamped at 0 by Math.max, which Nat subtraction
provides) and the remaining page quota. Returns (results, recordsSkipped). -/
def searchFilesLoop (src : Sources) (f : SearchFilters)
    (pageSize offset : Nat) :
    List String → List SewerInspection → Nat → List SewerInspection × Nat
  | [], results, recordsSkipped => (results, recordsSkipped)
  | file :: rest, results, recordsSkipped =>
    if pageSize ≤ results.length then (results, recordsSkipped)
    else
      let r := streamWithOffsetAndLimit (src file) f
        (offset - recordsSkipped) (pageSize - results.length)
      searchFilesLoop src f pageSize offset rest (results ++ r.1)
        (recordsSkipped + r.2)

/-- Result shape of both search backends. -/
structure SearchResult where
  results : List SewerInspection
  totalCount : Nat
deriving Repr

/-- searchInspections of the streaming-scan backend (search.ts lines
4-63). -/
def searchInspections (src : Sources) (f : SearchFilters)
    (page pageSize : Nat) : SearchResult :=
  let offset := (page - 1) * pageSize
  let scan := searchFilesLoop src f pageSize offset filesToSearch [] 0
  { results := scan.1
    totalCount := estimateTotalCount src f filesToSearch }

end StreamSearch

namespace DbSearch

/-- The WHERE clause built by getInspectionCount (sqlite.ts lines
372-420), as a predicate on a row. Conditions are appended only for
truthy text filters and for score / repair filters that are not
undefined. SQLite LIKE folds ASCII case; = on TEXT uses the default
BINARY collation and is case sensitive; requires_repair is stored and
compared as 0 / 1. -/
def countWhere (f : SearchFilters) (row : InspectionRow) : Bool :=
  (if strTruthy f.city then containsCI row.city (f.city.getD "") else true) &&
  (if strTruthy f.state then row.state == f.state.getD "" else true) &&
  (if strTruthy f.material then containsCI row.material (f.material.getD "") else true) &&
  (if f.scoreMin.isSome then decide (f.scoreMin.getD 0 ≤ row.inspection_score) else true) &&
  (if f.scoreMax.isSome then decide (row.inspection_score ≤ f.scoreMax.getD 0) else true) &&
  (if f.requiresRepair.isSome then row.requires_repair == f.requiresRepair.getD false else true)

/-- The WHERE clause built independently by getInspections (sqlite.ts
lines 422-464); the source duplicates the builder of getInspectionCount
condition for condition. -/
def getWhere (f : SearchFilters) (row : InspectionRow) : Bool :=
  (if strTruthy f.city then containsCI row.city (f.city.getD "") else true) &&
  (if strTruthy f.state then row.state == f.state.getD "" else true) &&
  (if strTruthy f.material then containsCI row.material (f.material.getD "") else true) &&
  (if f.scoreMin.isSome then decide (f.scoreMin.getD 0 ≤ row.inspection_score) else true) &&
  (if f.scoreMax.isSome then decide (row.inspection_score ≤ f.scoreMax.getD 0) else true) &&
  (if f.requiresRepair.isSome then row.requires_repair == f.requiresRepair.getD false else true)

/-- Recency order used by ORDER BY timestamp_utc DESC: a row precedes
another when its ISO timestamp string is the larger one (ISO timestamps
compare chronologically as strings). -/
def tsDesc (a b : InspectionRow) : Prop :=
  b.timestamp_utc ≤ a.timestamp_utc

instance : DecidableRel tsDesc :=
  fun a b => inferInstanceAs (Decidable (b.timestamp_utc ≤ a.timestamp_utc))

/-- getInspectionCount (sqlite.ts lines 372-420): SELECT COUNT over the
filtered table. -/
def getInspectionCount (db : List InspectionRow) (f : SearchFilters) : Nat :=
  (db.filter (countWhere f)).length

/-- getInspections (sqlite.ts lines 422-478): SELECT with the filter
WHERE clause, ORDER BY timestamp_utc DESC, LIMIT pageSize
OFFSET (page - 1) * pageSize. -/
def getInspections (db : List InspectionRow) (f : SearchFilters)
    (page pageSize : Nat) : List InspectionRow :=
  (((db.filter (getWhere f)).insertionSort tsDesc).drop
    ((page - 1) * pageSize)).take pageSize

/-- Result shape of the indexed backend. -/
structure DbSearchResult where
  results : List InspectionRow
  totalCount : Nat
deriving Repr

/-- searchInspections of the indexed backend (database/search.ts lines
474-499): one exact count query plus one page query. -/
def searchInspections (db : List InspectionRow) (f : SearchFilters)
    (page pageSize : Nat) : DbSearchResult :=
  { results := getInspections db f page pageSize
    totalCount := getInspectionCount db f }

end DbSearch

namespace Store

/-- transformInspectionForDb (sqlite.ts lines 162-209), restricted to the
modelled columns: missing fields are replaced by the safeValue defaults
(empty string, 0, false). The ISO re-normalisation of timestamp_utc is
the identity on the already-ISO timestamps of this data set. -/
def transformInspectionForDb (r : SewerInspection) : InspectionRow :=
  { id := r.id.getD ""
    timestamp_utc := r.timestamp_utc
    city := r.city.getD ""
    state := r.state.getD ""
    material := r.material.getD ""
    inspection_score := r.inspection_score.getD 0
    requires_repair := r.requires_repair.getD false }

/-- insertInspection (sqlite.ts lines 264-311): INSERT OR REPLACE keyed
on the id primary key. An existing row with the same id is replaced,
otherwise the row is appended; either way the statement reports one
changed row, so the function returns true. -/
def upsertRow (store : List InspectionRow) (row : InspectionRow) :
    List InspectionRow :=
  if store.any (fun r => r.id == row.id) then
    store.map (fun r => if r.id == row.id then row else r)
  else
    store ++ [row]

/-- insertInspectionsBatch (sqlite.ts lines 313-337): upsert each record
of the batch inside one transaction. Every insertInspection call reports
a change, so the returned count is the batch length; the count is read
off the batch where needed. -/
def insertInspectionsBatch (store : List InspectionRow)
    (records : List SewerInspection) : List InspectionRow :=
  records.foldl (fun s r => upsertRow s (transformInspectionForDb r)) store

/-- The ids present in the store, in storage order. -/
def storeIds (store : List InspectionRow) : List String :=
  store.map (fun r => r.id)

end Store

namespace Importer

/-- A row of the import_log checkpoint table (sqlite.ts lines 85-98). -/
structure ImportLogRow where
  id : Nat
  source_file : String
  started_at : String
  completed_at : Option String
  records_processed : Nat
  records_imported : Nat
  errors : Nat
  status : String
deriving DecidableEq, Repr

/-- The status set of the SQL condition
status IN (running, paused, failed) used by calculateResumeOffset
and getResumableImports: every status except completed. -/
def isResumableStatus (s : String) : Bool :=
  s == "running" || s == "paused" || s == "failed"

/-- Recency order on checkpoint rows used by ORDER BY started_at DESC. -/
def startedDesc (a b : ImportLogRow) : Prop :=
  b.started_at ≤ a.started_at

instance : DecidableRel startedDesc :=
  fun a b => inferInstanceAs (Decidable (b.started_at ≤ a.started_at))

/-- calculateResumeOffset (importer.ts lines 435-447): the
records_processed of the most recent non-completed checkpoint row for the
file, or 0 when none exists. -/
def calculateResumeOffset (log : List ImportLogRow) (fileName : String) : Nat :=
  let rows := (log.filter (fun r =>
    r.source_file == fileName && isResumableStatus r.status)).insertionSort startedDesc
  match rows.head? with
  | some r => r.records_processed
  | none => 0

/-- canResumeImport (importer.ts lines 452-455). -/
def canResumeImport (log : List ImportLogRow) (fileName : String) : Bool :=
  decide (0 < calculateResumeOffset log fileName)

/-- The offset of the first decode call of DataImporter.importFromS3
(importer.ts lines 50-61 and 83): the resume offset when resume was
requested or a resumable checkpoint exists, else 0. -/
def firstDecodeOffset (log : List ImportLogRow) (fileName : String)
    (resume : Bool) : Nat :=
  if resume || canResumeImport log fileName then
    calculateResumeOffset log fileName
  else 0

/-- Records per streaming chunk of the import loop (importer.ts line 79). -/
def chunkSize : Nat := 200

/-- Default batch size (importer.ts line 29). -/
def batchSize : Nat := 100

/-- In-memory ImportProgress counters (importer.ts lines 6-17),
restricted to the counter and status fields the claims are about. -/
structure Progress where
  recordsProcessed : Nat
  recordsImported : Nat
  errors : Nat
  status : String
deriving DecidableEq, Repr

/-- DataImporter.validateRecord (importer.ts lines 244-267): three guard
clauses; JS falsiness makes a missing or empty string fail, while the
numeric and boolean fields are compared against undefined only. -/
def validateRecord (r : SewerInspection) : Bool :=
  if !(strTruthy r.id) || !(strTruthy r.city) || !(strTruthy r.state) then false
  else if !(strTruthy r.material) || !r.diameter_in.isSome then false
  else if !r.inspection_score.isSome || !r.requires_repair.isSome then false
  else true

/-- DataImporter.filterDuplicates (importer.ts lines 269-296): the batch
record ids are looked up in the store and records whose id already exists
are dropped; a record without an id is never equal to a stored TEXT id
and is kept. -/
def filterDuplicates (store : List InspectionRow)
    (records : List SewerInspection) : List SewerInspection :=
  records.filter (fun r => !(store.any (fun row => some row.id == r.id)))

/-- Structural worker for createBatches: each step emits one slice of b
elements and recurses on the rest; the fuel is spent one unit per step
and a fuel of the list length always suffices because every step drops
at least one element. -/
def createBatchesGo (b : Nat) : Nat → List α → List (List α)
  | _, [] => []
  | 0, _ :: _ => []
  | fuel + 1, a :: l =>
    if b == 0 then []
    else (a :: l).take b :: createBatchesGo b fuel ((a :: l).drop b)

/-- DataImporter.createBatches (importer.ts lines 236-242): consecutive
slices of the given size. A batch size of 0 loops forever in the source;
it is modelled as the empty batch list and never instantiated. -/
def createBatches (l : List α) (b : Nat) : List (List α) :=
  createBatchesGo b l.length l

/-- The per-batch body of the import loop (importer.ts lines 96-118):
validate when enabled, drop duplicates when enabled, insert the
survivors, then add the batch length to recordsProcessed, the inserted
count to recordsImported and the difference to errors. No storage
exception occurs in the pure model, so the catch branch at lines 120-124
is not taken. -/
def processBatch (store : List InspectionRow) (prog : Progress)
    (batch : List SewerInspection) (skipDuplicates validateData : Bool) :
    List InspectionRow × Progress :=
  let validBatch := if validateData then batch.filter validateRecord else batch
  let filteredBatch := if skipDuplicates then filterDuplicates store validBatch
    else validBatch
  let store2 := Store.insertInspectionsBatch store filteredBatch
  let insertedCount := filteredBatch.length
  (store2,
   { prog with
     recordsProcessed := prog.recordsProcessed + batch.length
     recordsImported := prog.recordsImported + insertedCount
     errors := prog.errors + (batch.length - insertedCount) })

/-- The chunk loop of DataImporter.importFromS3 (importer.ts lines
81-133) with the stop signal never raised: fetch a chunk at the current
offset, process its batches, advance the offset by the chunk length, and
stop on an empty or short chunk. fuel bounds the recursion and the
top-level entry supplies more than the loop can consume. -/
def importLoop (lines : List SourceLine) (skipDuplicates validateData : Bool)
    (bSize : Nat) :
    Nat → List InspectionRow → Progress → Nat → List InspectionRow × Progress
  | 0, store, prog, _ => (store, prog)
  | fuel + 1, store, prog, offset =>
    let chunk := streamFromS3 lines chunkSize offset
    if chunk.isEmpty then (store, prog)
    else
      let sp := (createBatches chunk bSize).foldl
        (fun (sp : List InspectionRow × Progress) batch =>
          processBatch sp.1 sp.2 batch skipDuplicates validateData)
        (store, prog)
      if chunk.length < chunkSize then sp
      else importLoop lines skipDuplicates validateData bSize fuel sp.1 sp.2
        (offset + chunk.length)

/-- The records drawn from the decoder by the import loop, chunk after
chunk, for given fuel and starting offset; this sequence depends only on
the source, never on the store, so two runs over the same source see the
same records. -/
def deliveredRecords (lines : List SourceLine) :
    Nat → Nat → List SewerInspection
  | 0, _ => []
  | fuel + 1, offset =>
    let chunk := streamFromS3 lines chunkSize offset
    if chunk.isEmpty then []
    else if chunk.length < chunkSize then chunk
    else chunk ++ deliveredRecords lines fuel (offset + chunk.length)

/-- A fresh DataImporter.importFromS3 run (importer.ts lines 46-156):
no resumable checkpoint, offset 0, zeroed counters, the default batch
size, and no stop signal, so the run finalises as completed. -/
def runImportFresh (lines : List SourceLine)
    (skipDuplicates validateData : Bool) (store : List InspectionRow) :
    List InspectionRow × Progress :=
  let out := importLoop lines skipDuplicates validateData batchSize
    (lines.length + 1) store
    { recordsProcessed := 0, recordsImported := 0, errors := 0
      status := "running" } 0
  (out.1, { out.2 with status := "completed" })

end Importer

namespace ImportApi

/-- The module-level state of src/app/api/import/route.ts: whether a
DataImporter instance exists and whether its isRunning flag is set. -/
structure ApiState where
  importerExists : Bool
  importerRunning : Bool
deriving DecidableEq, Repr

/-- The HTTP outcome of a start request: the response status and optional
error payload. -/
structure StartOutcome where
  status : Nat
  error : Option String
deriving DecidableEq, Repr

/-- startImport (route.ts lines 72-150): when a current importer exists
and reports isImportRunning, respond 409 with the conflict error and
leave the state untouched; otherwise create a fresh importer, kick off
its run and respond 200. -/
def startImport (s : ApiState) : StartOutcome × ApiState :=
  if s.importerExists && s.importerRunning then
    ({ status := 409, error := some "Import is already running" }, s)
  else
    ({ status := 200, error := none },
     { importerExists := true, importerRunning := true })

end ImportApi

/-! ### Concrete fixtures used by counterexamples and witnesses -/

/-- A fully populated, valid record. -/
def sampleRec (idn city ts : String) : SewerInspection :=
  { id := some idn
    timestamp_utc := ts
    city := some city
    state := some "TX"
    material := some "PVC"
    diameter_in := some 12
    inspection_score := some 80
    requires_repair := some false }

/-- A record carrying the six fields named by the validation claim but
missing the pipe diameter. -/
def noDiameterRec : SewerInspection :=
  { id := some "INS-NODIAM"
    timestamp_utc := "2024-01-01T00:00:00Z"
    city := some "Houston"
    state := some "TX"
    material := some "PVC"
    diameter_in := none
    inspection_score := some 80
    requires_repair := some false }

/-- A stored row whose state is the uppercase TX. -/
def txRow : InspectionRow :=
  { id := "INS-TX"
    timestamp_utc := "2024-01-01T00:00:00Z"
    city := "Houston"
    state := "TX"
    material := "PVC"
    inspection_score := 80
    requires_repair := false }

/-- Zeroed progress counters at the start of a fresh run. -/
def progZero : Importer.Progress :=
  { recordsProcessed := 0, recordsImported := 0, errors := 0
    status := "running" }

/-- Written from the claim text: a record has all of the six required
fields the claim lists — identifier, location city, location state, pipe
material, inspection score, repair flag (a missing or empty string field
counts as missing). -/
def specSixRequiredFields (r : SewerInspection) : Bool :=
  strTruthy r.id && strTruthy r.city && strTruthy r.state &&
  strTruthy r.material && r.inspection_score.isSome &&
  r.requires_repair.isSome

/-- Written from the amended claim text: the fields the code actually
requires — the six above plus the pipe diameter. -/
def specRequiredFieldsAmended (r : SewerInspection) : Bool :=
  strTruthy r.id && strTruthy r.city && strTruthy r.state &&
  strTruthy r.material && r.diameter_in.isSome &&
  r.inspection_score.isSome && r.requires_repair.isSome

instance : IsTotal Importer.ImportLogRow Importer.startedDesc :=
  ⟨fun a b => (le_total b.started_at a.started_at).elim Or.inl Or.inr⟩

instance : IsTrans Importer.ImportLogRow Importer.startedDesc :=
  ⟨fun _ _ _ hab hbc => le_trans hbc hab⟩

instance : IsRefl Importer.ImportLogRow Importer.startedDesc :=
  ⟨fun a => le_refl a.started_at⟩

/-- Eleven records that all match the empty filter. -/
def elevenRecs : List SewerInspection :=
  (List.range 11).map
    (fun k => sampleRec (toString k) "Houston" "2024-01-01T00:00:00Z")

/-- The smallest multiple of the scan chunk size at or past n. -/
def chunkCeil (n : Nat) : Nat :=
  StreamSearch.chunkSize *
    ((n + (StreamSearch.chunkSize - 1)) / StreamSearch.chunkSize)

/-- A source file of 500 non-matching records followed by one record
whose city contains xen: the match lies just past the sampled prefix. -/
def c1File1 : List SourceLine :=
  (List.replicate 500 (some (sampleRec "A" "Austin" "2024-01-01T00:00:00Z")))
    ++ [some (sampleRec "X" "Xenia" "2024-01-01T00:00:00Z")]

/-- A store where only the first searched file is nonempty. -/
def c1Sources : StreamSearch.Sources := fun name =>
  if name == "sewer-inspections-part1.jsonl" then c1File1 else []

/-- The number of records the batch step inserts, read off the same
validate-then-dedup pipeline the step runs (importer.ts lines 96-108). -/
def insertedCount (store : List InspectionRow)
    (batch : List SewerInspection) (skipDuplicates validateData : Bool) :
    Nat :=
  let validBatch := if validateData then batch.filter Importer.validateRecord
    else batch
  (if skipDuplicates then Importer.filterDuplicates store validBatch
    else validBatch).length

/-! ### C9: the import-in-progress guard -/

/-- C9: while an import run is active in the process (an importer exists
and reports isImportRunning), a second start request is answered 409
with the error Import is already running and the state is left untouched
(not queued); when no import is running the start request is accepted. -/
theorem c9_import_conflict_guard :
    (∀ s : ImportApi.ApiState,
      s.importerExists = true → s.importerRunning = true →
      ImportApi.startImport s =
        ({ status := 409, error := some "Import is already running" }, s)) ∧
    (∀ s : ImportApi.ApiState,
      s.importerExists = false ∨ s.importerRunning = false →
      (ImportApi.startImport s).1.status = 200 ∧
      (ImportApi.startImport s).1.error = none ∧
      (ImportApi.startImport s).2.importerRunning = true) := by
  constructor
  · intro s hE hR
    simp [ImportApi.startImport, hE, hR]
  · intro s h
    rcases h with h | h <;> simp [ImportApi.startImport, h]

/-! ### C8: the validation predicate -/

/-- validateRecord agrees pointwise with the amended required-field
predicate. -/
theorem validateRecord_eq_specAmended (r : SewerInspection) :
    Importer.validateRecord r = specRequiredFieldsAmended r := by
  unfold Importer.validateRecord specRequiredFieldsAmended
  cases hid : strTruthy r.id <;> cases hcity : strTruthy r.city <;>
    cases hstate : strTruthy r.state <;> cases hmat : strTruthy r.material <;>
    cases hd : r.diameter_in.isSome <;> cases hs : r.inspection_score.isSome <;>
    cases hr : r.requires_repair.isSome <;> simp [hid, hcity, hstate, hmat, hd, hs, hr]

/-- Counterexample to C8: a record carrying all six fields the claim
lists is nevertheless discarded by validateRecord (the code also
requires the pipe diameter), and with validation enabled the batch step
inserts nothing for it while counting one error. -/
theorem c8_validation_counterexample :
    specSixRequiredFields noDiameterRec = true ∧
    Importer.validateRecord noDiameterRec = false ∧
    (Importer.processBatch [] progZero [noDiameterRec] false true).1 = [] ∧
    (Importer.processBatch [] progZero [noDiameterRec] false true).2.errors = 1 := by
  refine ⟨by decide, by decide, by decide, by decide⟩

/-- C8 (amended): with validation enabled the importer keeps a record for
insertion if and only if it has identifier, location city, location
state, pipe material, pipe diameter, inspection score and repair flag
(string fields nonempty); each discarded record adds one to the error
counter of the batch step. -/
theorem c8_validation_amended :
    (∀ batch : List SewerInspection,
      batch.filter Importer.validateRecord =
        batch.filter specRequiredFieldsAmended) ∧
    (∀ (store : List InspectionRow) (prog : Importer.Progress)
        (batch : List SewerInspection),
      (Importer.processBatch store prog batch false true).2.errors =
        prog.errors +
          (batch.filter (fun r => !specRequiredFieldsAmended r)).length) := by
  have hpt : ∀ r, Importer.validateRecord r = specRequiredFieldsAmended r :=
    validateRecord_eq_specAmended
  constructor
  · intro batch
    exact List.filter_congr (fun r _ => hpt r)
  · intro store prog batch
    have hflt : batch.filter Importer.validateRecord =
        batch.filter specRequiredFieldsAmended :=
      List.filter_congr (fun r _ => hpt r)
    have hlen : batch.length =
        (batch.filter specRequiredFieldsAmended).length +
          (batch.filter (fun r => !specRequiredFieldsAmended r)).length :=
      List.length_eq_length_filter_add specRequiredFieldsAmended
    simp [Importer.processBatch, hflt]
    omega

/-! ### C2: state filter semantics across the two backends -/

/-- An absent string is JS-falsy. -/
theorem strTruthy_none : strTruthy none = false := rfl

/-- A nonempty string is JS-truthy. -/
theorem strTruthy_some_ne {s : String} (h : s ≠ "") :
    strTruthy (some s) = true := by
  have hh : s.isEmpty = false := by
    cases hh : s.isEmpty
    · rfl
    · exact absurd ((String.isEmpty_iff s).mp hh) h
  simp [strTruthy, hh]

/-- Counterexample to C2: on the indexed backend the state filter is the
SQL equality state = ?, which is case sensitive under the default BINARY
collation, so the filters tx and TX return different result sets for a
store holding one row with state TX — while the streaming backend
matches the row under both spellings. -/
theorem c2_state_filter_counterexample :
    (DbSearch.searchInspections [txRow] { state := some "tx" } 1 10).results
      = [] ∧
    (DbSearch.searchInspections [txRow] { state := some "TX" } 1 10).results
      = [txRow] ∧
    matchesFilters (sampleRec "INS-TX" "Houston" "2024-01-01T00:00:00Z")
      { state := some "tx" } = true ∧
    matchesFilters (sampleRec "INS-TX" "Houston" "2024-01-01T00:00:00Z")
      { state := some "TX" } = true := by
  refine ⟨by decide, by decide, by decide, by decide⟩

/-- C2 (amended): the streaming backend matches the state filter
case-insensitively as an exact value, but the indexed backend compares
the stored state with the filter by case-sensitive string equality; the
two backends agree only when the filter matches the stored case. -/
theorem c2_state_filter_amended :
    (∀ (row : InspectionRow) (s : String), s ≠ "" →
      DbSearch.getWhere { state := some s } row = (row.state == s) ∧
      DbSearch.countWhere { state := some s } row = (row.state == s)) ∧
    (∀ (i : SewerInspection) (st s : String), s ≠ "" → st ≠ "" →
      i.state = some st →
      matchesFilters i { state := some s } =
        (asciiLower st == asciiLower s)) := by
  constructor
  · intro row s hs
    constructor <;>
      simp [DbSearch.getWhere, DbSearch.countWhere, strTruthy_some_ne hs,
        strTruthy_none]
  · intro i st s hs hst hi
    cases h : (asciiLower st == asciiLower s) <;>
      simp [matchesFilters, hi, strTruthy_some_ne hs, strTruthy_some_ne hst,
        strTruthy_none, h]

/-- Witness for c2_state_filter_amended: the TX row against the filter
value tx on both backends. -/
theorem c2_state_filter_amended_witness :
    (DbSearch.getWhere { state := some "tx" } txRow = (txRow.state == "tx") ∧
     DbSearch.countWhere { state := some "tx" } txRow = (txRow.state == "tx")) ∧
    matchesFilters (sampleRec "INS-TX" "Houston" "2024-01-01T00:00:00Z")
      { state := some "tx" } = (asciiLower "TX" == asciiLower "tx") :=
  ⟨c2_state_filter_amended.1 txRow "tx" (by decide),
   c2_state_filter_amended.2 (sampleRec "INS-TX" "Houston" "2024-01-01T00:00:00Z")
     "TX" "tx" (by decide) (by decide) rfl⟩

/-! ### C3: resume offset resolution -/

/-- C3: with resume requested, the offset handed to the first decode
call is exactly the records_processed of the most recent non-completed
checkpoint for the source (unique most recent by strictness of the
second hypothesis); with no resumable checkpoint on file, a fresh run
starts at offset 0. -/
theorem c3_resume_offset :
    (∀ (log : List Importer.ImportLogRow) (fileName : String)
        (row : Importer.ImportLogRow),
      row ∈ log → row.source_file = fileName →
      Importer.isResumableStatus row.status = true →
      (∀ r2 ∈ log, r2.source_file = fileName →
        Importer.isResumableStatus r2.status = true →
        r2 = row ∨ r2.started_at < row.started_at) →
      Importer.firstDecodeOffset log fileName true = row.records_processed) ∧
    (∀ (log : List Importer.ImportLogRow) (fileName : String),
      (∀ r2 ∈ log, r2.source_file = fileName →
        Importer.isResumableStatus r2.status = false) →
      Importer.firstDecodeOffset log fileName false = 0) := by
  constructor
  · intro log fileName row hmem hfile hres hmax
    have hoff : Importer.calculateResumeOffset log fileName =
        row.records_processed := by
      unfold Importer.calculateResumeOffset
      set flt := log.filter (fun r =>
        r.source_file == fileName && Importer.isResumableStatus r.status) with hflt
      have hmemf : row ∈ flt := by
        rw [hflt]
        exact List.mem_filter.mpr ⟨hmem, by simp [hfile, hres]⟩
      have hperm : List.Perm (flt.insertionSort Importer.startedDesc) flt :=
        List.perm_insertionSort _ _
      have hsorted : List.Sorted Importer.startedDesc
          (flt.insertionSort Importer.startedDesc) :=
        List.sorted_insertionSort _ _
      have hmems : row ∈ flt.insertionSort Importer.startedDesc :=
        hperm.symm.subset hmemf
      cases hsrt : flt.insertionSort Importer.startedDesc with
      | nil => rw [hsrt] at hmems; cases hmems
      | cons hd tl =>
        have hhdmem : hd ∈ flt := hperm.subset (by rw [hsrt]; exact List.mem_cons_self hd tl)
        have hhdlog : hd ∈ log ∧
            (hd.source_file == fileName && Importer.isResumableStatus hd.status) = true := by
          rw [hflt] at hhdmem
          exact List.mem_filter.mp hhdmem
        have hhdfile : hd.source_file = fileName := by
          have := hhdlog.2
          simp only [Bool.and_eq_true, beq_iff_eq] at this
          exact this.1
        have hhdres : Importer.isResumableStatus hd.status = true := by
          have := hhdlog.2
          simp only [Bool.and_eq_true, beq_iff_eq] at this
          exact this.2
        have hhd : hd = row := by
          rcases hmax hd hhdlog.1 hhdfile hhdres with h | hlt
          · exact h
          · exfalso
            rw [hsrt] at hmems hsorted
            rcases List.mem_cons.mp hmems with h | h
            · rw [h] at hlt; exact lt_irrefl _ hlt
            · have : Importer.startedDesc hd row :=
                List.rel_of_sorted_cons hsorted row h
              exact absurd this (not_le_of_lt hlt)
        simp [hsrt, hhd]
    unfold Importer.firstDecodeOffset
    simp [hoff]
  · intro log fileName hnone
    have hflt : log.filter (fun r =>
        r.source_file == fileName && Importer.isResumableStatus r.status) = [] := by
      apply List.filter_eq_nil_iff.mpr
      intro r hr
      simp only [Bool.and_eq_true, beq_iff_eq, not_and]
      intro hf
      simp [hnone r hr hf]
    have hoff : Importer.calculateResumeOffset log fileName = 0 := by
      unfold Importer.calculateResumeOffset
      simp [hflt]
    unfold Importer.firstDecodeOffset Importer.canResumeImport
    simp [hoff]

/-- Witness for c3_resume_offset: a log holding one completed and one
paused checkpoint for the file resumes at the offset of the paused one, and a
log holding only a completed checkpoint starts fresh at 0. -/
theorem c3_resume_offset_witness :
    Importer.firstDecodeOffset
      [⟨1, "f1.jsonl", "2024-01-01T00:00:00Z", some "2024-01-01T01:00:00Z",
        5000, 5000, 0, "completed"⟩,
       ⟨2, "f1.jsonl", "2024-01-02T00:00:00Z", none, 1400, 1300, 100,
        "paused"⟩] "f1.jsonl" true = 1400 ∧
    Importer.firstDecodeOffset
      [⟨1, "f1.jsonl", "2024-01-01T00:00:00Z", some "2024-01-01T01:00:00Z",
        5000, 5000, 0, "completed"⟩] "f1.jsonl" false = 0 :=
  ⟨c3_resume_offset.1 _ "f1.jsonl"
      ⟨2, "f1.jsonl", "2024-01-02T00:00:00Z", none, 1400, 1300, 100, "paused"⟩
      (by decide) rfl (by decide) (by decide),
   c3_resume_offset.2 _ "f1.jsonl" (by decide)⟩

/-! ### C7: early termination of the streaming scan -/

/-- Counterexample to C7: for a source of 11 matching records and a page
of size 10 at offset 0, the decoder produces the whole 11-record chunk —
one record past skip + pageSize = 10 — because the scan consumes the
decoder in chunks of 500 and the filter callback counts every chunk
record before the page cut-off is applied. -/
theorem c7_early_termination_counterexample :
    (StreamSearch.streamWithOffsetAndLimit (elevenRecs.map some)
      ({} : SearchFilters) 0 10).2 = 11 ∧
    ¬((StreamSearch.streamWithOffsetAndLimit (elevenRecs.map some)
      ({} : SearchFilters) 0 10).2 ≤ 0 + 10) := by
  refine ⟨by decide, by decide⟩

/-- On a source with no malformed lines the decoder returns a plain
slice. -/
theorem streamFromS3_map_some (records : List SewerInspection) (k p : Nat) :
    streamFromS3 (records.map some) k p = (records.drop p).take k := by
  unfold streamFromS3
  rw [← List.map_drop, List.filterMap_map]
  simp

/-- The collect loop never pushes localSkipped past skipCount. -/
theorem collectLoop_skip_le (skipCount limitCount : Nat)
    (l : List SewerInspection) :
    ∀ (acc : List SewerInspection) (ls : Nat), ls ≤ skipCount →
      (StreamSearch.collectLoop skipCount limitCount l acc ls).2.1 ≤ skipCount := by
  induction l with
  | nil =>
    intro acc ls h
    simpa [StreamSearch.collectLoop] using h
  | cons a t ih =>
    intro acc ls h
    by_cases hls : ls < skipCount
    · simpa [StreamSearch.collectLoop, hls] using ih acc (ls + 1) (by omega)
    · by_cases hacc : acc.length < limitCount
      · simpa [StreamSearch.collectLoop, hls, hacc] using ih (acc ++ [a]) ls h
      · simpa [StreamSearch.collectLoop, hls, hacc] using h

/-- The collect loop never grows the page past limitCount. -/
theorem collectLoop_len_le (skipCount limitCount : Nat)
    (l : List SewerInspection) :
    ∀ (acc : List SewerInspection) (ls : Nat), acc.length ≤ limitCount →
      (StreamSearch.collectLoop skipCount limitCount l acc ls).1.length ≤
        limitCount := by
  induction l with
  | nil =>
    intro acc ls h
    simpa [StreamSearch.collectLoop] using h
  | cons a t ih =>
    intro acc ls h
    by_cases hls : ls < skipCount
    · simpa [StreamSearch.collectLoop, hls] using ih acc (ls + 1) h
    · by_cases hacc : acc.length < limitCount
      · simpa [StreamSearch.collectLoop, hls, hacc] using
          ih (acc ++ [a]) ls (by simp; omega)
      · simpa [StreamSearch.collectLoop, hls, hacc] using h

/-- When the collect loop runs off the end of the filtered chunk without
an early return, every chunk match went either to the skip counter or to
the page. -/
theorem collectLoop_no_early (skipCount limitCount : Nat)
    (l : List SewerInspection) :
    ∀ (acc : List SewerInspection) (ls : Nat),
      (StreamSearch.collectLoop skipCount limitCount l acc ls).2.2 = false →
      (StreamSearch.collectLoop skipCount limitCount l acc ls).2.1 +
        (StreamSearch.collectLoop skipCount limitCount l acc ls).1.length =
        ls + acc.length + l.length := by
  induction l with
  | nil =>
    intro acc ls _
    simp [StreamSearch.collectLoop]
  | cons a t ih =>
    intro acc ls h
    by_cases hls : ls < skipCount
    · simp only [StreamSearch.collectLoop, if_pos hls, List.length_cons] at h ⊢
      have hrec := ih acc (ls + 1) h
      omega
    · by_cases hacc : acc.length < limitCount
      · simp only [StreamSearch.collectLoop, if_neg hls, if_pos hacc,
          List.length_cons] at h ⊢
        have hrec := ih (acc ++ [a]) ls h
        simp only [List.length_append, List.length_cons, List.length_nil] at hrec ⊢
        omega
      · simp only [StreamSearch.collectLoop, if_neg hls, if_neg hacc] at h
        cases h

/-- Match counts over prefixes of the source grow with the prefix. -/
theorem take_filter_mono (p : SewerInspection → Bool)
    (l : List SewerInspection) {n m : Nat} (h : n ≤ m) :
    ((l.take n).filter p).length ≤ ((l.take m).filter p).length := by
  have h1 : l.take n = (l.take m).take n := by
    rw [List.take_take, min_eq_left h]
  rw [h1]
  exact ((List.take_sublist n (l.take m)).filter p).length_le

/-- Loop invariant of the streaming scan: as long as the page has not
been filled, the processed offset stays below the chunk boundary of the
fill point, so totalProcessed never exceeds the smallest chunk multiple
at or past any prefix containing skipCount + limitCount matches (nor the
source length). -/
theorem streamLoop_totalProcessed_le
    (records : List SewerInspection) (f : SearchFilters)
    (skipCount limitCount n : Nat)
    (hn : skipCount + limitCount ≤
      ((records.take n).filter (streamScanPred f)).length) :
    ∀ (fuel : Nat) (acc : List SewerInspection) (processed ls : Nat),
      ls + acc.length =
        ((records.take processed).filter (streamScanPred f)).length →
      ls ≤ skipCount → acc.length ≤ limitCount →
      StreamSearch.chunkSize ∣ processed →
      processed ≤ min (chunkCeil n) records.length →
      (StreamSearch.streamLoop (records.map some) f skipCount limitCount
        fuel acc processed ls).2 ≤ min (chunkCeil n) records.length := by
  intro fuel
  induction fuel with
  | zero =>
    intro acc processed ls _ _ _ _ hle
    simpa [StreamSearch.streamLoop] using hle
  | succ fuel ih =>
    intro acc processed ls hinv hls hacc hdvd hle
    by_cases hguard : acc.length < limitCount
    · have hchunk : streamFromS3 (records.map some) StreamSearch.chunkSize
          processed = (records.drop processed).take StreamSearch.chunkSize :=
        streamFromS3_map_some records _ processed
      by_cases hempty :
          ((records.drop processed).take StreamSearch.chunkSize).isEmpty
      · simpa [StreamSearch.streamLoop, hguard, hchunk, hempty] using hle
      · set chunk := (records.drop processed).take StreamSearch.chunkSize
          with hc
        have hclen500 : chunk.length ≤ StreamSearch.chunkSize := by
          simp [hc]
        have hclenrem : processed + chunk.length ≤ records.length := by
          have h1 : chunk.length ≤ records.length - processed := by
            simp [hc]
          omega
        have hstrict :
            ((records.take processed).filter (streamScanPred f)).length <
              skipCount + limitCount := by omega
        have hpn : processed < n := by
          by_contra hge
          push_neg at hge
          have := take_filter_mono (streamScanPred f) records hge
          omega
        have hp500 : processed + StreamSearch.chunkSize ≤ chunkCeil n := by
          obtain ⟨k, hk⟩ := hdvd
          have h2 : k + 1 ≤
              (n + (StreamSearch.chunkSize - 1)) / StreamSearch.chunkSize := by
            rw [Nat.le_div_iff_mul_le (by norm_num [StreamSearch.chunkSize])]
            simp only [StreamSearch.chunkSize] at hk ⊢
            omega
          calc processed + StreamSearch.chunkSize
              = StreamSearch.chunkSize * (k + 1) := by rw [hk]; ring
            _ ≤ StreamSearch.chunkSize *
                ((n + (StreamSearch.chunkSize - 1)) / StreamSearch.chunkSize) :=
                  Nat.mul_le_mul_left _ h2
            _ = chunkCeil n := rfl
        have hp2le : processed + chunk.length ≤
            min (chunkCeil n) records.length :=
          le_min (by omega) hclenrem
        rcases hcl2 : StreamSearch.collectLoop skipCount limitCount
            (chunk.filter (streamScanPred f)) acc ls with ⟨m2, ls2, early⟩
        have hskip2 : ls2 ≤ skipCount := by
          have := collectLoop_skip_le skipCount limitCount
            (chunk.filter (streamScanPred f)) acc ls hls
          rw [hcl2] at this
          exact this
        have hlen2 : m2.length ≤ limitCount := by
          have := collectLoop_len_le skipCount limitCount
            (chunk.filter (streamScanPred f)) acc ls hacc
          rw [hcl2] at this
          exact this
        cases early with
        | true =>
          simp only [StreamSearch.streamLoop, if_pos hguard, hchunk, ← hc, hcl2]
          rw [if_neg hempty]
          exact hp2le
        | false =>
          have hinv2 : ls2 + m2.length = ls + acc.length +
              (chunk.filter (streamScanPred f)).length := by
            have := collectLoop_no_early skipCount limitCount
              (chunk.filter (streamScanPred f)) acc ls
            rw [hcl2] at this
            exact this rfl
          by_cases h500 : chunk.length < StreamSearch.chunkSize
          · simp only [StreamSearch.streamLoop, if_pos hguard, hchunk, ← hc,
              hcl2, if_pos h500]
            rw [if_neg hempty]
            exact hp2le
          · have hchlen : chunk.length = StreamSearch.chunkSize :=
              le_antisymm hclen500 (not_lt.mp h500)
            have htake : records.take (processed + chunk.length) =
                records.take processed ++ chunk := by
              rw [List.take_add]
              congr 1
              rw [hc, hchlen]
            have hcount2 : ls2 + m2.length =
                ((records.take (processed + chunk.length)).filter
                  (streamScanPred f)).length := by
              rw [htake, List.filter_append, List.length_append, ← hinv, hinv2]
            have hdvd2 : StreamSearch.chunkSize ∣ processed + chunk.length := by
              obtain ⟨k, hk⟩ := hdvd
              exact ⟨k + 1, by rw [hchlen, hk]; ring⟩
            simp only [StreamSearch.streamLoop, if_pos hguard, hchunk, ← hc,
              hcl2, if_neg h500]
            rw [if_neg hempty]
            exact ih m2 (processed + chunk.length) ls2 hcount2 hskip2 hlen2
              hdvd2 hp2le
    · simpa [StreamSearch.streamLoop, hguard] using hle

/-- C7 (amended): the streaming scan consumes the decoder at chunk
granularity (chunks of 500 records): it stops requesting chunks the
moment the page is filled, so when some prefix of n source records
already contains skipCount + limitCount matches, the decoder produces at
most the source length and at most the smallest multiple of the chunk
size at or past n — but it can exceed skip + pageSize by up to the rest
of the chunk that filled the page. -/
theorem c7_early_termination_amended
    (records : List SewerInspection) (f : SearchFilters)
    (skipCount limitCount n : Nat)
    (hn : skipCount + limitCount ≤
      ((records.take n).filter (streamScanPred f)).length) :
    (StreamSearch.streamWithOffsetAndLimit (records.map some) f skipCount
      limitCount).2 ≤ min (chunkCeil n) records.length := by
  unfold StreamSearch.streamWithOffsetAndLimit
  exact streamLoop_totalProcessed_le records f skipCount limitCount n hn
    ((records.map some).length + 1) [] 0 0 (by simp) (Nat.zero_le _)
    (Nat.zero_le _) (dvd_zero _) (Nat.zero_le _)

/-- Witness for c7_early_termination_amended on the eleven-record
source: the scan processes at most min 500 11 = 11 records. -/
theorem c7_early_termination_amended_witness :
    (StreamSearch.streamWithOffsetAndLimit (elevenRecs.map some)
      ({} : SearchFilters) 0 10).2 ≤ min (chunkCeil 10) elevenRecs.length :=
  c7_early_termination_amended elevenRecs {} 0 10 10 (by decide)

/-! ### C1: the streaming totalCount lower bound -/

set_option maxRecDepth 100000 in
/-- Counterexample to C1: the scan for page 1 observes (and returns) one
match, yet the reported totalCount is 0, because estimateTotalCount
resamples only the first 500 records of each file — where no match
lives — and lower-bounds the estimate by the sample matches, not by the
matches the real scan observed. -/
theorem c1_count_lower_bound_counterexample :
    (StreamSearch.searchInspections c1Sources { city := some "xen" } 1 10).results.length = 1 ∧
    (StreamSearch.searchInspections c1Sources { city := some "xen" } 1 10).totalCount = 0 := by
  refine ⟨by decide, by decide⟩

/-- The sample match count never exceeds the sample size. -/
theorem sampleTotals_snd_le_fst (src : StreamSearch.Sources)
    (f : SearchFilters) (files : List String) :
    (StreamSearch.sampleTotals src f files).2 ≤
      (StreamSearch.sampleTotals src f files).1 := by
  induction files with
  | nil => simp [StreamSearch.sampleTotals]
  | cons file rest ih =>
    simp only [StreamSearch.sampleTotals]
    have hf : ((streamFromS3 (src file) StreamSearch.sampleSize 0).filter
        (fun i => matchesFilters i f)).length ≤
        (streamFromS3 (src file) StreamSearch.sampleSize 0).length :=
      List.length_filter_le _ _
    omega

/-- C1 (amended): the totalCount of the streaming backend is never smaller
than the number of matches observed in the estimation samples (the first
500 records of each file); it can fall below the number of matches the
page scan itself observed when a match lies beyond a sampled prefix. -/
theorem c1_count_lower_bound_amended (src : StreamSearch.Sources)
    (f : SearchFilters) (page pageSize : Nat) :
    (StreamSearch.sampleTotals src f StreamSearch.filesToSearch).2 ≤
      (StreamSearch.searchInspections src f page pageSize).totalCount := by
  show (StreamSearch.sampleTotals src f StreamSearch.filesToSearch).2 ≤
    StreamSearch.estimateTotalCount src f StreamSearch.filesToSearch
  unfold StreamSearch.estimateTotalCount
  by_cases hz : (StreamSearch.sampleTotals src f StreamSearch.filesToSearch).1 = 0
  · have := sampleTotals_snd_le_fst src f StreamSearch.filesToSearch
    simp [hz]
    omega
  · simp [hz]

/-! ### C5: indexed pagination -/

/-- The two independently built WHERE clauses of getInspectionCount and
getInspections agree. -/
theorem countWhere_eq_getWhere : DbSearch.countWhere = DbSearch.getWhere := rfl

/-- C5: the indexed backend returns exactly the page-p slice of the
filtered result set sorted by recency descending, reports the exact
filtered count, never returns more than pageSize rows, and (for a store
with distinct primary keys) no row appears on two consecutive pages. -/
theorem c5_indexed_pagination (db : List InspectionRow) (f : SearchFilters)
    (p s : Nat) (hp : 1 ≤ p)
    (hids : db.Pairwise (fun a b => a.id ≠ b.id)) :
    (DbSearch.searchInspections db f p s).results =
      (((db.filter (DbSearch.getWhere f)).insertionSort DbSearch.tsDesc).drop
        ((p - 1) * s)).take s ∧
    (DbSearch.searchInspections db f p s).totalCount =
      (db.filter (DbSearch.getWhere f)).length ∧
    (DbSearch.searchInspections db f p s).results.length ≤ s ∧
    ∀ r ∈ (DbSearch.searchInspections db f p s).results,
      r ∉ (DbSearch.searchInspections db f (p + 1) s).results := by
  refine ⟨rfl, ?_, ?_, ?_⟩
  · show DbSearch.getInspectionCount db f = _
    rw [DbSearch.getInspectionCount, countWhere_eq_getWhere]
  · show ((((db.filter (DbSearch.getWhere f)).insertionSort
      DbSearch.tsDesc).drop ((p - 1) * s)).take s).length ≤ s
    rw [List.length_take]
    exact min_le_left _ _
  · intro r hr hr2
    have hnodupdb : db.Nodup :=
      hids.imp (fun h heq => h (congrArg InspectionRow.id heq))
    have hnodupf : (db.filter (DbSearch.getWhere f)).Nodup :=
      hnodupdb.filter _
    have hnodups : ((db.filter (DbSearch.getWhere f)).insertionSort
        DbSearch.tsDesc).Nodup :=
      (List.perm_insertionSort DbSearch.tsDesc _).nodup_iff.mpr hnodupf
    set sorted := (db.filter (DbSearch.getWhere f)).insertionSort
      DbSearch.tsDesc with hsorted
    have hnodupdrop : (sorted.drop ((p - 1) * s)).Nodup :=
      (List.drop_sublist _ _).nodup hnodups
    have hoff : (p - 1) * s + s = p * s := by
      cases p with
      | zero => omega
      | succ q => simp [Nat.succ_sub_one, Nat.succ_mul]
    have hpage2 : r ∈ (sorted.drop ((p - 1) * s)).drop s := by
      have : (DbSearch.searchInspections db f (p + 1) s).results =
          (sorted.drop (p * s)).take s := by
        show (((db.filter (DbSearch.getWhere f)).insertionSort
          DbSearch.tsDesc).drop ((p + 1 - 1) * s)).take s = _
        simp [hsorted]
      rw [this] at hr2
      have hmem : r ∈ sorted.drop (p * s) := List.take_subset _ _ hr2
      rw [← hoff] at hmem
      rw [List.drop_drop]
      simpa [Nat.add_comm] using hmem
    exact List.disjoint_take_drop hnodupdrop (le_refl s) hr hpage2

/-- Witness for c5_indexed_pagination on a two-row store with pageSize 1:
page 1 holds the newer row, page 2 the older one, the count is 2 and the
pages are disjoint. -/
theorem c5_indexed_pagination_witness :
    (DbSearch.searchInspections
      [txRow, { txRow with id := "INS-2", timestamp_utc := "2025-01-01T00:00:00Z" }]
      {} 1 1).totalCount = 2 ∧
    (DbSearch.searchInspections
      [txRow, { txRow with id := "INS-2", timestamp_utc := "2025-01-01T00:00:00Z" }]
      {} 1 1).results.length ≤ 1 := by
  have h := c5_indexed_pagination
    [txRow, { txRow with id := "INS-2", timestamp_utc := "2025-01-01T00:00:00Z" }]
    {} 1 1 (by decide) (by decide)
  exact ⟨by rw [h.2.1]; decide, h.2.2.1⟩

/-! ### C6: one malformed line followed by two valid records -/

/-- Counterexample to C6: for the source [malformed, valid, valid] a
fresh import run completes with recordsImported = 2 as claimed, but the
error counter stays 0 — the decoder drops the malformed line silently
(console logging only) and the importer never sees it, so no error is
counted. -/
theorem c6_malformed_line_counterexample :
    (Importer.runImportFresh
      [none, some (sampleRec "R1" "Houston" "2024-01-01T00:00:00Z"),
       some (sampleRec "R2" "Dallas" "2024-01-02T00:00:00Z")]
      true true []).2.recordsImported = 2 ∧
    ¬(1 ≤ (Importer.runImportFresh
      [none, some (sampleRec "R1" "Houston" "2024-01-01T00:00:00Z"),
       some (sampleRec "R2" "Dallas" "2024-01-02T00:00:00Z")]
      true true []).2.errors) := by
  refine ⟨by decide, by decide⟩

/-- C6 (amended): for any source holding one malformed line followed by
two valid records, a fresh import run (dedup and validation on, empty
store) does not abort: it finalises as completed with
recordsImported = 2 — and errors = 0, because the malformed line is
silently skipped inside the decoder and never surfaces in the error
counter of the importer. -/
theorem c6_malformed_line_amended (r1 r2 : SewerInspection)
    (h1 : Importer.validateRecord r1 = true)
    (h2 : Importer.validateRecord r2 = true) :
    (Importer.runImportFresh [none, some r1, some r2] true true []).2 =
      { recordsProcessed := 2, recordsImported := 2, errors := 0
        status := "completed" } := by
  have hb : Importer.createBatchesGo 100 2 [r1, r2] = [[r1, r2]] := rfl
  simp [Importer.runImportFresh, Importer.importLoop, streamFromS3,
    Importer.chunkSize, Importer.batchSize, Importer.createBatches, hb,
    Importer.processBatch, Importer.filterDuplicates, List.filter_cons,
    h1, h2]

/-- Witness for c6_malformed_line_amended at two concrete valid
records. -/
theorem c6_malformed_line_amended_witness :
    (Importer.runImportFresh
      [none, some (sampleRec "W1" "Houston" "2024-01-01T00:00:00Z"),
       some (sampleRec "W2" "Dallas" "2024-01-02T00:00:00Z")]
      true true []).2 =
      { recordsProcessed := 2, recordsImported := 2, errors := 0
        status := "completed" } :=
  c6_malformed_line_amended _ _ (by decide) (by decide)

/-! ### Store lemmas shared by C4 and C10 -/

/-- Upserting either replaces a row in place (ids unchanged) or appends
a row with a fresh id. -/
theorem storeIds_upsert (store : List InspectionRow) (row : InspectionRow) :
    Store.storeIds (Store.upsertRow store row) =
      if store.any (fun r => r.id == row.id) then Store.storeIds store
      else Store.storeIds store ++ [row.id] := by
  unfold Store.upsertRow
  by_cases h : store.any (fun r => r.id == row.id)
  · rw [if_pos h, if_pos h]
    unfold Store.storeIds
    rw [List.map_map]
    apply List.map_congr_left
    intro r _
    by_cases hr : r.id == row.id
    · simp only [Function.comp]
      rw [if_pos hr]
      exact (beq_iff_eq.mp hr).symm
    · simp only [Function.comp]
      rw [if_neg hr]
  · rw [if_neg h, if_neg h]
    simp [Store.storeIds]

/-- The id of the upserted row is present afterwards. -/
theorem mem_storeIds_upsert_self (store : List InspectionRow)
    (row : InspectionRow) :
    row.id ∈ Store.storeIds (Store.upsertRow store row) := by
  rw [storeIds_upsert]
  by_cases h : store.any (fun r => r.id == row.id)
  · rw [if_pos h]
    rcases List.any_eq_true.mp h with ⟨r, hr, hid⟩
    rw [← beq_iff_eq.mp hid]
    exact List.mem_map_of_mem (fun r => r.id) hr
  · rw [if_neg h]
    exact List.mem_append_right _ (List.mem_singleton_self _)

/-- Upserting never removes an id. -/
theorem mem_storeIds_upsert_mono (store : List InspectionRow)
    (row : InspectionRow) {x : String} (hx : x ∈ Store.storeIds store) :
    x ∈ Store.storeIds (Store.upsertRow store row) := by
  rw [storeIds_upsert]
  by_cases h : store.any (fun r => r.id == row.id)
  · rw [if_pos h]; exact hx
  · rw [if_neg h]; exact List.mem_append_left _ hx

/-- Upserting preserves distinctness of the stored ids. -/
theorem nodup_storeIds_upsert (store : List InspectionRow)
    (row : InspectionRow) (h : (Store.storeIds store).Nodup) :
    (Store.storeIds (Store.upsertRow store row)).Nodup := by
  rw [storeIds_upsert]
  by_cases hin : store.any (fun r => r.id == row.id)
  · rw [if_pos hin]; exact h
  · rw [if_neg hin]
    rw [List.nodup_append]
    refine ⟨h, List.nodup_singleton _, ?_⟩
    intro a ha hmem
    have hax : a = row.id := List.mem_singleton.mp hmem
    rcases List.mem_map.mp ha with ⟨r, hr, hid⟩
    have : (r.id == row.id) = false := by
      cases hany : (r.id == row.id)
      · rfl
      · exact absurd (List.any_eq_true.mpr ⟨r, hr, hany⟩) hin
    exact absurd (by rw [hid, hax]) (beq_eq_false_iff_ne.mp this)

/-- Batch insertion never removes an id. -/
theorem mem_storeIds_insertBatch_mono (records : List SewerInspection) :
    ∀ (store : List InspectionRow) {x : String},
      x ∈ Store.storeIds store →
      x ∈ Store.storeIds (Store.insertInspectionsBatch store records) := by
  induction records with
  | nil => intro store x hx; exact hx
  | cons r rest ih =>
    intro store x hx
    exact ih _ (mem_storeIds_upsert_mono _ _ hx)

/-- After a batch insertion the id of every inserted record is stored. -/
theorem mem_storeIds_insertBatch_self (records : List SewerInspection) :
    ∀ (store : List InspectionRow) {r : SewerInspection}, r ∈ records →
      (Store.transformInspectionForDb r).id ∈
        Store.storeIds (Store.insertInspectionsBatch store records) := by
  induction records with
  | nil => intro store r hr; cases hr
  | cons a rest ih =>
    intro store r hr
    rcases List.mem_cons.mp hr with h | h
    · subst h
      exact mem_storeIds_insertBatch_mono rest _
        (mem_storeIds_upsert_self _ _)
    · exact ih _ h

/-- Batch insertion preserves distinctness of the stored ids. -/
theorem nodup_storeIds_insertBatch (records : List SewerInspection) :
    ∀ (store : List InspectionRow), (Store.storeIds store).Nodup →
      (Store.storeIds (Store.insertInspectionsBatch store records)).Nodup := by
  induction records with
  | nil => intro store h; exact h
  | cons r rest ih =>
    intro store h
    exact ih _ (nodup_storeIds_upsert _ _ h)

/-! ### Batch-step lemmas shared by C4 and C10 -/

/-- The batch step never removes an id, whatever the option flags. -/
theorem processBatch_ids_mono (store : List InspectionRow)
    (prog : Importer.Progress) (batch : List SewerInspection)
    (dedup validate : Bool) {x : String}
    (hx : x ∈ Store.storeIds store) :
    x ∈ Store.storeIds
      (Importer.processBatch store prog batch dedup validate).1 :=
  mem_storeIds_insertBatch_mono _ _ hx

/-- After a batch step with dedup and validation on, every valid record
of the batch has its id stored: either it survived the duplicate filter
and was upserted, or it was dropped precisely because its id was already
stored. -/
theorem processBatch_ids_covers (store : List InspectionRow)
    (prog : Importer.Progress) (batch : List SewerInspection)
    {r : SewerInspection} (hr : r ∈ batch)
    (hv : Importer.validateRecord r = true) :
    r.id.getD "" ∈ Store.storeIds
      (Importer.processBatch store prog batch true true).1 := by
  unfold Importer.processBatch
  simp only [if_pos]
  have hrv : r ∈ batch.filter Importer.validateRecord :=
    List.mem_filter.mpr ⟨hr, hv⟩
  by_cases hdup : store.any (fun row => some row.id == r.id)
  · rcases List.any_eq_true.mp hdup with ⟨row, hrow, hid⟩
    have : r.id.getD "" = row.id := by
      cases hcase : r.id with
      | none => rw [hcase] at hid; cases hid
      | some s =>
        rw [hcase] at hid
        have := beq_iff_eq.mp hid
        simp only [hcase, Option.getD_some]
        exact (Option.some_injective _ this).symm
    rw [this]
    exact mem_storeIds_insertBatch_mono _ _
      (List.mem_map_of_mem (fun row => row.id) hrow)
  · have hmemf : r ∈ Importer.filterDuplicates store
        (batch.filter Importer.validateRecord) := by
      unfold Importer.filterDuplicates
      refine List.mem_filter.mpr ⟨hrv, ?_⟩
      simp only [Bool.not_eq_true']
      exact Bool.eq_false_iff.mpr (fun hcontra => hdup hcontra)
    have := mem_storeIds_insertBatch_self _ store hmemf
    simpa [Store.transformInspectionForDb] using this

/-- The batch step preserves distinctness of the stored ids. -/
theorem processBatch_nodup (store : List InspectionRow)
    (prog : Importer.Progress) (batch : List SewerInspection)
    (dedup validate : Bool) (h : (Store.storeIds store).Nodup) :
    (Store.storeIds
      (Importer.processBatch store prog batch dedup validate).1).Nodup :=
  nodup_storeIds_insertBatch _ _ h

/-- When every valid record of the batch is already stored, the batch
step (dedup and validation on) inserts nothing: the store is unchanged,
recordsImported does not move, and the whole batch is counted as
errors. -/
theorem processBatch_alldup (store : List InspectionRow)
    (prog : Importer.Progress) (batch : List SewerInspection)
    (h : ∀ r ∈ batch, Importer.validateRecord r = true →
      r.id.getD "" ∈ Store.storeIds store) :
    Importer.processBatch store prog batch true true =
      (store,
       { prog with
         recordsProcessed := prog.recordsProcessed + batch.length
         recordsImported := prog.recordsImported
         errors := prog.errors + batch.length }) := by
  have hempty : Importer.filterDuplicates store
      (batch.filter Importer.validateRecord) = [] := by
    unfold Importer.filterDuplicates
    apply List.filter_eq_nil_iff.mpr
    intro r hrv
    rcases List.mem_filter.mp hrv with ⟨hr, hv⟩
    have hid := h r hr hv
    have hidsome : r.id = some (r.id.getD "") := by
      cases hcase : r.id with
      | none =>
        exfalso
        unfold Importer.validateRecord at hv
        rw [hcase] at hv
        simp [strTruthy] at hv
      | some s => simp [hcase]
    rcases List.mem_map.mp hid with ⟨row, hrow, hrowid⟩
    have : store.any (fun row => some row.id == r.id) = true := by
      refine List.any_eq_true.mpr ⟨row, hrow, ?_⟩
      rw [hidsome, hrowid]
      exact beq_self_eq_true _
    simp [this]
  unfold Importer.processBatch
  simp only [if_pos, hempty]
  simp [Store.insertInspectionsBatch]

/-! ### Chunk-level lemmas shared by C4 and C10 -/

/-- Every batch produced by the batch splitter is made of source
elements. -/
theorem createBatchesGo_subset (b : Nat) :
    ∀ (fuel : Nat) (l batch : List α),
      batch ∈ Importer.createBatchesGo b fuel l → ∀ r ∈ batch, r ∈ l := by
  intro fuel
  induction fuel with
  | zero =>
    intro l batch hb
    cases l with
    | nil => cases hb
    | cons a t => cases hb
  | succ fuel ih =>
    intro l batch hb
    cases l with
    | nil => cases hb
    | cons a t =>
      simp only [Importer.createBatchesGo] at hb
      by_cases hz : (b == 0) = true
      · rw [if_pos hz] at hb; cases hb
      · rw [if_neg hz] at hb
        rcases List.mem_cons.mp hb with h | h
        · subst h
          intro r hr
          exact List.take_subset _ _ hr
        · intro r hr
          exact List.drop_subset _ _ (ih _ batch h r hr)

/-- The batch splitter partitions the whole list: batch lengths sum to
the list length (given enough fuel and a nonzero batch size). -/
theorem createBatchesGo_length_sum (b : Nat) (hb : b ≠ 0) :
    ∀ (fuel : Nat) (l : List α), l.length ≤ fuel →
      ((Importer.createBatchesGo b fuel l).map List.length).sum = l.length := by
  intro fuel
  induction fuel with
  | zero =>
    intro l hl
    cases l with
    | nil => rfl
    | cons a t => simp at hl
  | succ fuel ih =>
    intro l hl
    cases l with
    | nil => rfl
    | cons a t =>
      simp only [Importer.createBatchesGo]
      rw [if_neg (by simpa using hb)]
      have hdrop : ((a :: t).drop b).length ≤ fuel := by
        rw [List.length_drop]
        simp only [List.length_cons] at hl ⊢
        omega
      simp only [List.map_cons, List.sum_cons, ih _ hdrop,
        List.length_take, List.length_drop]
      simp only [List.length_cons]
      omega

/-- Every source element lands in some batch. -/
theorem createBatchesGo_cover (b : Nat) (hb : b ≠ 0) :
    ∀ (fuel : Nat) (l : List α), l.length ≤ fuel → ∀ r ∈ l,
      ∃ batch ∈ Importer.createBatchesGo b fuel l, r ∈ batch := by
  intro fuel
  induction fuel with
  | zero =>
    intro l hl r hr
    cases l with
    | nil => cases hr
    | cons a t => simp at hl
  | succ fuel ih =>
    intro l hl r hr
    cases l with
    | nil => cases hr
    | cons a t =>
      simp only [Importer.createBatchesGo]
      rw [if_neg (by simpa using hb)]
      rw [← List.take_append_drop b (a :: t)] at hr
      rcases List.mem_append.mp hr with h | h
      · exact ⟨(a :: t).take b, List.mem_cons_self _ _, h⟩
      · have hdrop : ((a :: t).drop b).length ≤ fuel := by
          rw [List.length_drop]
          simp only [List.length_cons] at hl ⊢
          omega
        rcases ih _ hdrop r h with ⟨batch, hbmem, hrb⟩
        exact ⟨batch, List.mem_cons_of_mem _ hbmem, hrb⟩

/-- Folding the batch step never removes an id. -/
theorem foldBatches_ids_mono (dedup validate : Bool) :
    ∀ (batches : List (List SewerInspection))
      (sp : List InspectionRow × Importer.Progress) {x : String},
      x ∈ Store.storeIds sp.1 →
      x ∈ Store.storeIds ((batches.foldl
        (fun sp batch => Importer.processBatch sp.1 sp.2 batch dedup validate)
        sp).1) := by
  intro batches
  induction batches with
  | nil => intro sp x hx; exact hx
  | cons batch rest ih =>
    intro sp x hx
    exact ih _ (processBatch_ids_mono _ _ _ _ _ hx)

/-- After folding the batch step (dedup and validation on) over batches,
every valid record of every batch has its id stored. -/
theorem foldBatches_ids_covers :
    ∀ (batches : List (List SewerInspection))
      (sp : List InspectionRow × Importer.Progress) {r : SewerInspection},
      (∃ b ∈ batches, r ∈ b) → Importer.validateRecord r = true →
      r.id.getD "" ∈ Store.storeIds ((batches.foldl
        (fun sp batch => Importer.processBatch sp.1 sp.2 batch true true)
        sp).1) := by
  intro batches
  induction batches with
  | nil =>
    intro sp r hmem _
    rcases hmem with ⟨b, hb, _⟩
    cases hb
  | cons batch rest ih =>
    intro sp r hmem hv
    rcases hmem with ⟨b, hb, hrb⟩
    rcases List.mem_cons.mp hb with h | h
    · subst h
      exact foldBatches_ids_mono true true rest _
        (processBatch_ids_covers _ _ _ hrb hv)
    · exact ih _ ⟨b, h, hrb⟩ hv

/-- Folding the batch step preserves distinctness of stored ids. -/
theorem foldBatches_nodup (dedup validate : Bool) :
    ∀ (batches : List (List SewerInspection))
      (sp : List InspectionRow × Importer.Progress),
      (Store.storeIds sp.1).Nodup →
      (Store.storeIds ((batches.foldl
        (fun sp batch => Importer.processBatch sp.1 sp.2 batch dedup validate)
        sp).1)).Nodup := by
  intro batches
  induction batches with
  | nil => intro sp h; exact h
  | cons batch rest ih =>
    intro sp h
    exact ih _ (processBatch_nodup _ _ _ _ _ h)

/-- When every valid record of every batch is already stored, folding
the batch step (dedup and validation on) leaves the store untouched,
imports nothing, and counts every batch record as an error. -/
theorem foldBatches_alldup :
    ∀ (batches : List (List SewerInspection))
      (sp : List InspectionRow × Importer.Progress),
      (∀ b ∈ batches, ∀ r ∈ b, Importer.validateRecord r = true →
        r.id.getD "" ∈ Store.storeIds sp.1) →
      batches.foldl
        (fun sp batch => Importer.processBatch sp.1 sp.2 batch true true) sp =
        (sp.1,
         { sp.2 with
           recordsProcessed := sp.2.recordsProcessed +
             (batches.map List.length).sum
           errors := sp.2.errors + (batches.map List.length).sum }) := by
  intro batches
  induction batches with
  | nil =>
    intro sp _
    rcases sp with ⟨store, prog⟩
    rcases prog with ⟨a, b, c, d⟩
    simp
  | cons batch rest ih =>
    intro sp h
    have hstep := processBatch_alldup sp.1 sp.2 batch
      (h batch (List.mem_cons_self _ _))
    rcases sp with ⟨store, prog⟩
    simp only [List.foldl_cons, hstep]
    rw [ih _ (by
      intro b hb r hr hv
      exact h b (List.mem_cons_of_mem _ hb) r hr hv)]
    rcases prog with ⟨a, b2, c, d⟩
    simp [Nat.add_assoc]

/-! ### Import-loop lemmas shared by C4 and C10 -/

/-- Over a whole import run with dedup and validation on, stored ids are
never lost and every valid delivered record ends with its id stored. -/
theorem importLoop_ids (lines : List SourceLine) (bSize : Nat)
    (hb : bSize ≠ 0) :
    ∀ (fuel : Nat) (store : List InspectionRow) (prog : Importer.Progress)
      (offset : Nat),
      (∀ x ∈ Store.storeIds store,
        x ∈ Store.storeIds
          (Importer.importLoop lines true true bSize fuel store prog offset).1) ∧
      (∀ r ∈ Importer.deliveredRecords lines fuel offset,
        Importer.validateRecord r = true →
        r.id.getD "" ∈ Store.storeIds
          (Importer.importLoop lines true true bSize fuel store prog offset).1) := by
  intro fuel
  induction fuel with
  | zero =>
    intro store prog offset
    exact ⟨fun x hx => hx, fun r hr => absurd hr (List.not_mem_nil r)⟩
  | succ fuel ih =>
    intro store prog offset
    by_cases hempty : (streamFromS3 lines Importer.chunkSize offset).isEmpty
    · constructor
      · intro x hx
        simp only [Importer.importLoop, if_pos hempty]
        exact hx
      · intro r hr
        simp only [Importer.deliveredRecords, if_pos hempty] at hr
        cases hr
    · by_cases hfull : (streamFromS3 lines Importer.chunkSize offset).length <
          Importer.chunkSize
      · constructor
        · intro x hx
          simp only [Importer.importLoop, if_neg hempty, if_pos hfull]
          exact foldBatches_ids_mono true true _ _ hx
        · intro r hr hv
          simp only [Importer.deliveredRecords, if_neg hempty, if_pos hfull] at hr
          simp only [Importer.importLoop, if_neg hempty, if_pos hfull]
          exact foldBatches_ids_covers _ _
            (createBatchesGo_cover bSize hb _ _ (le_refl _) r hr) hv
      · constructor
        · intro x hx
          simp only [Importer.importLoop, if_neg hempty, if_neg hfull]
          exact (ih _ _ _).1 _ (foldBatches_ids_mono true true _ _ hx)
        · intro r hr hv
          simp only [Importer.deliveredRecords, if_neg hempty, if_neg hfull] at hr
          simp only [Importer.importLoop, if_neg hempty, if_neg hfull]
          rcases List.mem_append.mp hr with h | h
          · exact (ih _ _ _).1 _
              (foldBatches_ids_covers _ _
                (createBatchesGo_cover bSize hb _ _ (le_refl _) r h) hv)
          · exact (ih _ _ _).2 r h hv

/-- When every valid delivered record is already stored, a whole import
run with dedup and validation on leaves the store untouched, imports
nothing, and counts every delivered record as an error. -/
theorem importLoop_alldup (lines : List SourceLine) (bSize : Nat)
    (hb : bSize ≠ 0) :
    ∀ (fuel : Nat) (store : List InspectionRow) (prog : Importer.Progress)
      (offset : Nat),
      (∀ r ∈ Importer.deliveredRecords lines fuel offset,
        Importer.validateRecord r = true →
        r.id.getD "" ∈ Store.storeIds store) →
      Importer.importLoop lines true true bSize fuel store prog offset =
        (store,
         { prog with
           recordsProcessed := prog.recordsProcessed +
             (Importer.deliveredRecords lines fuel offset).length
           errors := prog.errors +
             (Importer.deliveredRecords lines fuel offset).length }) := by
  intro fuel
  induction fuel with
  | zero =>
    intro store prog offset _
    rcases prog with ⟨a, b, c, d⟩
    simp [Importer.importLoop, Importer.deliveredRecords]
  | succ fuel ih =>
    intro store prog offset h
    by_cases hempty : (streamFromS3 lines Importer.chunkSize offset).isEmpty
    · rcases prog with ⟨a, b, c, d⟩
      simp [Importer.importLoop, Importer.deliveredRecords, hempty]
    · have hsum :
          ((Importer.createBatches (streamFromS3 lines Importer.chunkSize
            offset) bSize).map List.length).sum =
          (streamFromS3 lines Importer.chunkSize offset).length :=
        createBatchesGo_length_sum bSize hb _ _ (le_refl _)
      by_cases hfull : (streamFromS3 lines Importer.chunkSize offset).length <
          Importer.chunkSize
      · have hfold := foldBatches_alldup
          (Importer.createBatches (streamFromS3 lines Importer.chunkSize
            offset) bSize) (store, prog)
          (by
            intro bch hbch r hr hv
            refine h r ?_ hv
            simp only [Importer.deliveredRecords, if_neg hempty, if_pos hfull]
            exact createBatchesGo_subset bSize _ _ bch hbch r hr)
        simp only [Importer.importLoop, if_neg hempty, if_pos hfull]
        rw [hfold]
        simp only [Importer.deliveredRecords, if_neg hempty, if_pos hfull]
        rw [hsum]
      · have hfold := foldBatches_alldup
          (Importer.createBatches (streamFromS3 lines Importer.chunkSize
            offset) bSize) (store, prog)
          (by
            intro bch hbch r hr hv
            refine h r ?_ hv
            simp only [Importer.deliveredRecords, if_neg hempty, if_neg hfull]
            exact List.mem_append_left _
              (createBatchesGo_subset bSize _ _ bch hbch r hr))
        have hrest := ih store
          { prog with
            recordsProcessed := prog.recordsProcessed +
              (streamFromS3 lines Importer.chunkSize offset).length
            errors := prog.errors +
              (streamFromS3 lines Importer.chunkSize offset).length }
          (offset + (streamFromS3 lines Importer.chunkSize offset).length)
          (by
            intro r hr hv
            refine h r ?_ hv
            simp only [Importer.deliveredRecords, if_neg hempty, if_neg hfull]
            exact List.mem_append_right _ hr)
        simp only [Importer.importLoop, if_neg hempty, if_neg hfull]
        rw [hfold, hsum, hrest]
        simp only [Importer.deliveredRecords, if_neg hempty, if_neg hfull]
        rcases prog with ⟨a, b, c, d⟩
        simp [List.length_append]
        omega

/-- An import run with any option flags preserves distinctness of the
stored ids. -/
theorem importLoop_nodup (lines : List SourceLine)
    (dedup validate : Bool) (bSize : Nat) :
    ∀ (fuel : Nat) (store : List InspectionRow) (prog : Importer.Progress)
      (offset : Nat), (Store.storeIds store).Nodup →
      (Store.storeIds
        (Importer.importLoop lines dedup validate bSize fuel store prog
          offset).1).Nodup := by
  intro fuel
  induction fuel with
  | zero => intro store prog offset h; exact h
  | succ fuel ih =>
    intro store prog offset h
    by_cases hempty : (streamFromS3 lines Importer.chunkSize offset).isEmpty
    · simp only [Importer.importLoop, if_pos hempty]
      exact h
    · by_cases hfull : (streamFromS3 lines Importer.chunkSize offset).length <
          Importer.chunkSize
      · simp only [Importer.importLoop, if_neg hempty, if_pos hfull]
        exact foldBatches_nodup dedup validate _ _ h
      · simp only [Importer.importLoop, if_neg hempty, if_neg hfull]
        exact ih _ _ _ (foldBatches_nodup dedup validate _ _ h)

/-! ### C4: idempotent re-import -/

/-- C4: re-importing an unchanged source with dedup enabled imports zero
records on the second run (every identifier is already stored, so the
duplicate filter empties every batch); and with dedup disabled the
re-import upserts by identifier, so a store with distinct ids never
acquires duplicate rows. -/
theorem c4_idempotent_reimport :
    (∀ lines : List SourceLine,
      (Importer.runImportFresh lines true true
        (Importer.runImportFresh lines true true []).1).2.recordsImported = 0) ∧
    (∀ (lines : List SourceLine) (store : List InspectionRow),
      (Store.storeIds store).Nodup →
      (Store.storeIds
        (Importer.runImportFresh lines false true store).1).Nodup) := by
  constructor
  · intro lines
    have hb : Importer.batchSize ≠ 0 := by decide
    have hcov := (importLoop_ids lines Importer.batchSize hb
      (lines.length + 1) []
      { recordsProcessed := 0, recordsImported := 0, errors := 0
        status := "running" } 0).2
    have halldup := importLoop_alldup lines Importer.batchSize hb
      (lines.length + 1)
      ((Importer.importLoop lines true true Importer.batchSize
        (lines.length + 1) []
        { recordsProcessed := 0, recordsImported := 0, errors := 0
          status := "running" } 0).1)
      { recordsProcessed := 0, recordsImported := 0, errors := 0
        status := "running" } 0 hcov
    show ((Importer.runImportFresh lines true true
      (Importer.runImportFresh lines true true []).1).2).recordsImported = 0
    simp only [Importer.runImportFresh]
    rw [halldup]
  · intro lines store h
    exact importLoop_nodup lines false true Importer.batchSize
      (lines.length + 1) store _ 0 h

/-- Witness for c4_idempotent_reimport on a one-record source. -/
theorem c4_idempotent_reimport_witness :
    (Importer.runImportFresh
      [some (sampleRec "C4" "Houston" "2024-01-01T00:00:00Z")] true true
      (Importer.runImportFresh
        [some (sampleRec "C4" "Houston" "2024-01-01T00:00:00Z")] true true
        []).1).2.recordsImported = 0 ∧
    (Store.storeIds (Importer.runImportFresh
      [some (sampleRec "C4" "Houston" "2024-01-01T00:00:00Z")] false true
      []).1).Nodup :=
  ⟨c4_idempotent_reimport.1 _,
   c4_idempotent_reimport.2 _ [] (by decide)⟩

/-! ### C10: error accounting -/

/-- C10: after every batch committed without a storage exception, the
error counter grows by exactly batch length minus inserted count (so
validation and dedup discards are both charged as errors), and on a
re-import of an unchanged all-valid source with dedup enabled the final
error counter equals the number of delivered records — one error
per duplicate although nothing failed. -/
theorem c10_error_accounting :
    (∀ (store : List InspectionRow) (prog : Importer.Progress)
        (batch : List SewerInspection) (dedup validate : Bool),
      (Importer.processBatch store prog batch dedup validate).2.errors =
        prog.errors + (batch.length - insertedCount store batch dedup validate) ∧
      (Importer.processBatch store prog batch dedup validate).2.recordsImported =
        prog.recordsImported + insertedCount store batch dedup validate ∧
      insertedCount store batch dedup validate ≤ batch.length) ∧
    (∀ lines : List SourceLine,
      (∀ r ∈ Importer.deliveredRecords lines (lines.length + 1) 0,
        Importer.validateRecord r = true) →
      (Importer.runImportFresh lines true true
        (Importer.runImportFresh lines true true []).1).2.errors =
        (Importer.deliveredRecords lines (lines.length + 1) 0).length) := by
  constructor
  · intro store prog batch dedup validate
    refine ⟨rfl, rfl, ?_⟩
    unfold insertedCount
    have hval : (if validate then batch.filter Importer.validateRecord
        else batch).length ≤ batch.length := by
      cases validate
      · simp
      · simpa using List.length_filter_le _ _
    cases dedup
    · simpa using hval
    · calc (Importer.filterDuplicates store
          (if validate then batch.filter Importer.validateRecord
            else batch)).length
          ≤ (if validate then batch.filter Importer.validateRecord
            else batch).length := List.length_filter_le _ _
        _ ≤ batch.length := hval
  · intro lines _
    have hb : Importer.batchSize ≠ 0 := by decide
    have hcov := (importLoop_ids lines Importer.batchSize hb
      (lines.length + 1) []
      { recordsProcessed := 0, recordsImported := 0, errors := 0
        status := "running" } 0).2
    have halldup := importLoop_alldup lines Importer.batchSize hb
      (lines.length + 1)
      ((Importer.importLoop lines true true Importer.batchSize
        (lines.length + 1) []
        { recordsProcessed := 0, recordsImported := 0, errors := 0
          status := "running" } 0).1)
      { recordsProcessed := 0, recordsImported := 0, errors := 0
        status := "running" } 0 hcov
    show ((Importer.runImportFresh lines true true
      (Importer.runImportFresh lines true true []).1).2).errors = _
    simp only [Importer.runImportFresh]
    rw [halldup]
    simp

/-- Witness for c10_error_accounting: a concrete batch step and a
one-record re-import counting one duplicate as one error. -/
theorem c10_error_accounting_witness :
    (Importer.processBatch [] progZero
      [sampleRec "C10" "Houston" "2024-01-01T00:00:00Z"] true true).2.errors =
      progZero.errors +
        (1 - insertedCount []
          [sampleRec "C10" "Houston" "2024-01-01T00:00:00Z"] true true) ∧
    (Importer.runImportFresh
      [some (sampleRec "C10" "Houston" "2024-01-01T00:00:00Z")] true true
      (Importer.runImportFresh
        [some (sampleRec "C10" "Houston" "2024-01-01T00:00:00Z")] true true
        []).1).2.errors =
      (Importer.deliveredRecords
        [some (sampleRec "C10" "Houston" "2024-01-01T00:00:00Z")] 2 0).length :=
  ⟨((c10_error_accounting.1 [] progZero
      [sampleRec "C10" "Houston" "2024-01-01T00:00:00Z"] true true).1),
   c10_error_accounting.2 _ (by decide)⟩

/-- Witness for c9_import_conflict_guard at concrete states. -/
theorem c9_import_conflict_guard_witness :
    ImportApi.startImport ⟨true, true⟩ =
      ({ status := 409, error := some "Import is already running" },
       (⟨true, true⟩ : ImportApi.ApiState)) ∧
    (ImportApi.startImport ⟨false, false⟩).1.status = 200 :=
  ⟨c9_import_conflict_guard.1 ⟨true, true⟩ rfl rfl,
   (c9_import_conflict_guard.2 ⟨false, false⟩ (Or.inl rfl)).1⟩
